import Mathlib

set_option maxRecDepth 8000

/-!
Verification development for the parallel filesystem search engine of the
`fastfind` utility (src/tools/fastfind).  The C sources are shallowly
embedded: the directory walker (search.c `search_directory`), the entry
filter chain, the ignore-set handling with reference counts, the output
sink (`print_result`, `search_file_content`) and the seeder (main.c) are
translated into pure Lean functions over an explicit filesystem tree and
an explicit walk state.  The task pool is sequentialised: a submitted
child task runs immediately (depth first); an oracle `ok : String → Bool`
decides whether `threadpool_add` succeeds for a given child path, which
captures the only observable effect of the pool on the walk's results.
Machine integers are modelled as `Int`/`Nat` (all quantities involved stay
far from overflow in the scenarios considered).
-/

mutual
/-- Filesystem node as observed through `lstat`: a regular file (size,
mtime, owner uid, permission bits of `st_mode`, and text content as a list
of newline-stripped lines), a symbolic link, or a directory (optional
ignore file given as its raw lines, plus named child entries).  Symbolic
links carry no target because search.c classifies entries with `lstat`
only and never follows links; a link node therefore stands for any
symlink, including one whose target is a directory. -/
inductive FSNode where
  | file (size mtime : Int) (uid perms : Nat) (content : List String)
  | link (size mtime : Int) (uid perms : Nat)
  | dir (size mtime : Int) (uid perms : Nat) (ignoreFile : Option (List String)) (entries : FSEntries)

/-- Named entries of a directory, as returned by `readdir`. -/
inductive FSEntries where
  | nil
  | cons (name : String) (node : FSNode) (rest : FSEntries)
end

def FSNode.isFile : FSNode → Bool
  | .file .. => true
  | _ => false

def FSNode.isDir : FSNode → Bool
  | .dir .. => true
  | _ => false

def FSNode.isLink : FSNode → Bool
  | .link .. => true
  | _ => false

def FSNode.sizeN : FSNode → Int
  | .file s _ _ _ _ => s
  | .link s _ _ _ => s
  | .dir s _ _ _ _ _ => s

def FSNode.mtimeN : FSNode → Int
  | .file _ m _ _ _ => m
  | .link _ m _ _ => m
  | .dir _ m _ _ _ _ => m

def FSNode.uidN : FSNode → Nat
  | .file _ _ u _ _ => u
  | .link _ _ u _ => u
  | .dir _ _ u _ _ _ => u

def FSNode.permsN : FSNode → Nat
  | .file _ _ _ p _ => p
  | .link _ _ _ p => p
  | .dir _ _ _ p _ _ => p

def FSNode.contentN : FSNode → List String
  | .file _ _ _ _ c => c
  | _ => []

/-- Type tag character as computed in search.c line 242:
`is_dir ? 'd' : (is_file ? 'f' : 'l')`. -/
def typeCharOf (n : FSNode) : Char :=
  if n.isDir then 'd' else if n.isFile then 'f' else 'l'

/-- Convenience constructor for concrete trees. -/
def entriesOfList : List (String × FSNode) → FSEntries
  | [] => .nil
  | (n, c) :: rest => .cons n c (entriesOfList rest)

/-- Modelled from the spec: shell-glob matching as used for ignore
patterns (libc `fnmatch` with flags 0, which is not part of src/),
restricted to the `*` and `?` metacharacters and literal characters;
bracket classes and backslash escapes are not modelled.  The fuel makes
the definition structural, hence kernel-evaluable; `globMatch` supplies
enough fuel for complete matching (every step shrinks pattern+text). -/
def globAux : Nat → List Char → List Char → Bool
  | 0, _, _ => false
  | _ + 1, [], [] => true
  | f + 1, '*' :: ps, [] => globAux f ps []
  | f + 1, '*' :: ps, c :: cs => globAux f ps (c :: cs) || globAux f ('*' :: ps) cs
  | f + 1, '?' :: ps, _ :: cs => globAux f ps cs
  | f + 1, p :: ps, c :: cs => (p == c) && globAux f ps cs
  | _ + 1, _ :: _, [] => false
  | _ + 1, [], _ :: _ => false

def globMatch (pat name : String) : Bool :=
  globAux (pat.length + name.length + 1) pat.toList name.toList

/-- Translated from search.c `is_ignored`: a basename is ignored when any
pattern of the set matches it (`fnmatch(pattern, name, 0) == 0`); a NULL
set ignores nothing. -/
def isIgnoredPats (pats : List String) (name : String) : Bool :=
  pats.any (fun p => globMatch p name)

/-- Characters accepted by libc `isspace` in the C locale. -/
def isSpaceC (c : Char) : Bool :=
  c = ' ' || c = '\t' || c = '\n' || c = '\x0b' || c = '\x0c' || c = '\r'

/-- First-byte test, as C writes `s[0] == c`; false for the empty string. -/
def headIsChar (c : Char) (s : String) : Bool :=
  match s.toList with
  | [] => false
  | a :: _ => a == c

/-- Translated from search.c `load_ignore_file` lines 89-91: trailing
whitespace is trimmed by moving `end` back while `end > line`, so the
first character is always kept (a line of only blanks yields a
one-character pattern). -/
def trimTrailC : List Char → List Char
  | [] => []
  | c :: rest => c :: ((rest.reverse.dropWhile isSpaceC).reverse)

/-- Translated from search.c `load_ignore_file`: each line already has its
terminating newline removed; comment lines (starting `#`) and empty lines
are skipped, remaining lines are trailing-whitespace-trimmed and become
patterns in order. -/
def parseIgnoreLines (lines : List String) : List String :=
  lines.filterMap (fun l =>
    if headIsChar '#' l || l = "" then none
    else some (String.mk (trimTrailC l.toList)))

/-- Reference to a loaded ignore set: its index in the walk state's
allocation list together with its (frozen) pattern list. -/
abbrev IgRef := Nat × List String

def igTest : Option IgRef → String → Bool
  | none, _ => false
  | some r, name => isIgnoredPats r.2 name

/-- An allocated ignore set in the walk state: its patterns, its current
reference count, and whether `free_ignore_patterns` has released its
storage. -/
structure IgSet where
  pats : List String
  rc : Int
  freed : Bool
deriving DecidableEq, Repr

structure WalkState where
  out : List String
  filesScanned : Nat
  dirsScanned : Nat
  matchesFound : Nat
  activeTasks : Int
  igsets : List IgSet
  spawned : List (String × Char)
  visited : List String
deriving DecidableEq, Repr

def modifyAt (f : IgSet → IgSet) : Nat → List IgSet → List IgSet
  | _, [] => []
  | 0, x :: xs => f x :: xs
  | i + 1, x :: xs => x :: modifyAt f i xs

/-- Atomic increment of an ignore set's reference count
(search.c lines 255 and 258). -/
def rcIncr (i : Nat) (st : WalkState) : WalkState :=
  match st with
  | ⟨o, fs, ds, mf, act, ig, sp, vi⟩ =>
    ⟨o, fs, ds, mf, act, modifyAt (fun s => { s with rc := s.rc + 1 }) i ig, sp, vi⟩

/-- Translated from search.c `free_ignore_patterns`: fetch-and-subtract on
the count; if the previous value was greater than 1 only the count drops,
otherwise the storage is freed. -/
def rcDecr (i : Nat) (st : WalkState) : WalkState :=
  match st with
  | ⟨o, fs, ds, mf, act, ig, sp, vi⟩ =>
    ⟨o, fs, ds, mf, act, modifyAt (fun s =>
      if 1 < s.rc then { s with rc := s.rc - 1 }
      else { s with rc := s.rc - 1, freed := true }) i ig, sp, vi⟩

/-- Translated from search.c `load_ignore_file`: absence of the ignore
file yields NULL; otherwise a fresh set with refcount 1 holding the
parsed patterns is allocated. -/
def loadIgnore (ign : Option (List String)) (st : WalkState) : Option IgRef × WalkState :=
  match ign with
  | none => (none, st)
  | some lines =>
    match st with
    | ⟨o, fs, ds, mf, act, ig, sp, vi⟩ =>
      (some (ig.length, parseIgnoreLines lines),
       ⟨o, fs, ds, mf, act, ig ++ [{ pats := parseIgnoreLines lines, rc := 1, freed := false }], sp, vi⟩)

/-- Search configuration (search.h `search_config_t`), immutable during
the walk.  The compiled POSIX regexes are modelled as abstract predicates
on strings (`namePred`, `contentPred`); regex compilation failure is a
setup error that prevents any walk, so only compiled predicates appear
here.  `now` models the value returned by `time(NULL)` during the walk.
The exec/delete hooks and the long-listing formatter are outside the core
and are not modelled; the default match handler (print to sink) is. -/
structure SearchConfig where
  rootDir : String
  namePred : String → Bool
  contentPred : Option (String → Bool)
  extension : Option String
  ignoreCase : Bool
  maxDepth : Int
  typeMask : Nat
  sizeFilter : Int
  sizeOp : Int
  mtimeFilter : Int
  mtimeOp : Int
  ownerEnabled : Bool
  ownerFilter : Nat
  permsEnabled : Bool
  permsFilter : Nat
  excludeDirs : List String
  ignoreVcs : Bool
  noHidden : Bool
  withLineNumber : Bool
  outputFormat : String
  useColors : Bool
  now : Int

/-- Defaults from `init_search_config` plus main.c's post-parse fill-in
(type mask 7 when unset; colors off models a non-tty sink). -/
def defaultConfig : SearchConfig where
  rootDir := "."
  namePred := fun _ => true
  contentPred := none
  extension := none
  ignoreCase := false
  maxDepth := -1
  typeMask := 7
  sizeFilter := -1
  sizeOp := 0
  mtimeFilter := -1
  mtimeOp := 0
  ownerEnabled := false
  ownerFilter := 0
  permsEnabled := false
  permsFilter := 0
  excludeDirs := []
  ignoreVcs := true
  noHidden := true
  withLineNumber := false
  outputFormat := "text"
  useColors := false
  now := 0

/-- ASCII lowercase code of a character, as libc `tolower` computes it in
the C locale. -/
def lowerCode (c : Char) : Nat :=
  if 65 ≤ c.toNat ∧ c.toNat ≤ 90 then c.toNat + 32 else c.toNat

/-- Character comparison, optionally ASCII-case-insensitive
(strncmp versus strncasecmp). -/
def charsEqCase (ic : Bool) (a b : Char) : Bool :=
  if ic then lowerCode a == lowerCode b else a == b

def chunkEq (ic : Bool) : List Char → List Char → Bool
  | [], [] => true
  | a :: as, b :: bs => charsEqCase ic a b && chunkEq ic as bs
  | _, _ => false

/-- Translated from search.c `ends_with`: a suffix longer than the string
never matches; otherwise the tail of the string is compared with strncmp
or strncasecmp according to the flag. -/
def ends_with (s suffix : String) (ignoreCase : Bool) : Bool :=
  if suffix.length ≤ s.length then
    chunkEq ignoreCase (s.toList.drop (s.length - suffix.length)) suffix.toList
  else false

/-- Translated from regex_utils.c `search_file_content`'s line loop: lines
are scanned in order with 1-based numbering; a matching line sets the
result flag; with the line-number flag every matching line is printed as
`path:line:text\n` (the buffer's newline is stripped first, our model
lines are already stripped) and scanning continues, otherwise the loop
breaks at the first match. -/
def scanLines (pred : String → Bool) (wln : Bool) (path : String) :
    List String → Nat → Bool × List String
  | [], _ => (false, [])
  | l :: ls, n =>
    if pred l then
      if wln then
        let r := scanLines pred wln path ls (n + 1)
        (true, (path ++ ":" ++ toString n ++ ":" ++ l ++ "\n") :: r.2)
      else (true, [])
    else scanLines pred wln path ls (n + 1)

/-- Filter step 1 (search.c lines 192-196): the entry's type must
intersect the configured type mask (FILE=1, DIR=2, LINK=4). -/
def typeStep (cfg : SearchConfig) (n : FSNode) : Bool :=
  if ¬ ((n.isDir = true ∧ cfg.typeMask &&& 2 ≠ 0) ∨
        (n.isFile = true ∧ cfg.typeMask &&& 1 ≠ 0) ∨
        (n.isLink = true ∧ cfg.typeMask &&& 4 ≠ 0)) then false else true

/-- Filter step 2 (line 198): basename must match the name regex. -/
def nameStep (cfg : SearchConfig) (name : String) (m : Bool) : Bool :=
  if m = true ∧ cfg.namePred name = false then false else m

/-- Filter step 3 (lines 202-209): size filter. -/
def sizeStep (cfg : SearchConfig) (n : FSNode) (m : Bool) : Bool :=
  if m = true ∧ 0 ≤ cfg.sizeFilter then
    if n.isFile = false ∨
       (0 < cfg.sizeOp ∧ n.sizeN ≤ cfg.sizeFilter) ∨
       (cfg.sizeOp < 0 ∧ cfg.sizeFilter ≤ n.sizeN) ∨
       (cfg.sizeOp = 0 ∧ ¬ n.sizeN = cfg.sizeFilter) then false else m
  else m

/-- Filter step 4 (lines 211-218): mtime filter against `now - st_mtime`. -/
def mtimeStep (cfg : SearchConfig) (n : FSNode) (m : Bool) : Bool :=
  if m = true ∧ 0 ≤ cfg.mtimeFilter then
    if n.isFile = false ∨
       (cfg.mtimeOp < 0 ∧ cfg.mtimeFilter ≤ cfg.now - n.mtimeN) ∨
       (0 < cfg.mtimeOp ∧ cfg.now - n.mtimeN ≤ cfg.mtimeFilter) then false else m
  else m

/-- Filter step 5 (lines 220-224): extension suffix. -/
def extStep (cfg : SearchConfig) (name : String) (n : FSNode) (m : Bool) : Bool :=
  match cfg.extension with
  | none => m
  | some ext =>
    if m = true then
      if n.isFile = false ∨ ends_with name ext cfg.ignoreCase = false then false else m
    else m

/-- Filter step 6 (lines 226-230): content scan.  The short-circuit `||`
in C means the file is not opened when the entry is not a regular file;
the emissions of `search_file_content` (line-number mode) are returned
alongside the updated match flag. -/
def contentStep (cfg : SearchConfig) (full : String) (n : FSNode) (m : Bool) :
    Bool × List String :=
  match cfg.contentPred with
  | none => (m, [])
  | some pred =>
    if m = true then
      if n.isFile = false then (false, [])
      else
        match scanLines pred cfg.withLineNumber full n.contentN 1 with
        | (found, ems) => (if found = false then false else m, ems)
    else (m, [])

/-- Filter step 7 (lines 232-234): owner uid. -/
def ownerStep (cfg : SearchConfig) (n : FSNode) (m : Bool) : Bool :=
  if m = true ∧ cfg.ownerEnabled = true ∧ ¬ n.uidN = cfg.ownerFilter then false else m

/-- Filter step 8 (lines 235-237): low 9 permission bits, exact match. -/
def permStep (cfg : SearchConfig) (n : FSNode) (m : Bool) : Bool :=
  if m = true ∧ cfg.permsEnabled = true ∧ ¬ (n.permsN &&& 511) = cfg.permsFilter then false else m

/-- The complete filter chain of search.c lines 190-237, in source order,
starting from a positive match that each step may invalidate.  Returns
the final decision together with the sink writes made by the content scan. -/
def evalFilter (cfg : SearchConfig) (name full : String) (n : FSNode) : Bool × List String :=
  match contentStep cfg full n
      (extStep cfg name n
        (mtimeStep cfg n
          (sizeStep cfg n
            (nameStep cfg name (typeStep cfg n))))) with
  | (m, ems) => (permStep cfg n (ownerStep cfg n m), ems)

def CRESET : String := "\x1B[0m"
def CDIR : String := "\x1B[1;34m"
def CLINK : String := "\x1B[1;36m"
def CEXE : String := "\x1B[1;32m"
def CTYPE : String := "\x1B[90m"

/-- Color selection in `print_result` (text format); the file color is
the empty string, and colors are only chosen when enabled. -/
def colorFor (cfg : SearchConfig) (c : Char) (n : FSNode) : String :=
  if cfg.useColors then
    if c = 'd' then CDIR
    else if c = 'l' then CLINK
    else if n.permsN &&& 64 ≠ 0 then CEXE
    else ""
  else ""

/-- Translated from search.c `print_result` (long-listing mode excluded
from the model): JSON emits `,\n` before every record after the first
(decided by the matches-found counter, already incremented for the
current match); CSV emits one quoted-path row; text emits the (possibly
colorized) path and a type tag.  The reset and tag color codes are part
of the format string and appear even with colors disabled, as in C. -/
def printResult (cfg : SearchConfig) (path : String) (c : Char) (n : FSNode)
    (mcount : Nat) : String :=
  if cfg.outputFormat = "json" then
    (if 1 < mcount then ",\n" else "") ++
      "\x7b\"path\":\"" ++ path ++ "\",\"type\":\"" ++ String.singleton c ++
      "\",\"size\":" ++ toString n.sizeN ++ ",\"mtime\":" ++ toString n.mtimeN ++ "\x7d"
  else if cfg.outputFormat = "csv" then
    "\"" ++ path ++ "\"," ++ String.singleton c ++ "," ++ toString n.sizeN ++ "," ++
      toString n.mtimeN ++ "\n"
  else
    colorFor cfg c n ++ path ++ CRESET ++ " " ++ CTYPE ++ "[" ++ String.singleton c ++ "]" ++
      CRESET ++ "\n"

/-- Translated from search.c `handle_match`: when line numbers are
requested and a content regex is compiled the handler returns without
output (the lines were already emitted by the scan); otherwise the
default action prints the record to the sink (exec/delete hooks are
outside the core). -/
def handleMatch (cfg : SearchConfig) (path : String) (c : Char) (n : FSNode)
    (st : WalkState) : WalkState :=
  if cfg.withLineNumber = true ∧ cfg.contentPred.isSome = true then st
  else
    match st with
    | ⟨o, fs, ds, mf, act, ig, sp, vi⟩ =>
      ⟨o ++ [printResult cfg path c n mf], fs, ds, mf, act, ig, sp, vi⟩

/-- Match bookkeeping of search.c lines 239-244: bump files-scanned for
regular files, bump matches-found, then invoke the handler. -/
def recordMatch (cfg : SearchConfig) (full : String) (n : FSNode) (st : WalkState) : WalkState :=
  match st with
  | ⟨o, fs, ds, mf, act, ig, sp, vi⟩ =>
    handleMatch cfg full (typeCharOf n) n
      ⟨o, if n.isFile then fs + 1 else fs, ds, mf + 1, act, ig, sp, vi⟩

/-- Final step of every task (search.c lines 279-287): the task decrements
the active-task counter.  Note that, as in the source, the task does NOT
release its inherited ignore set here. -/
def taskEnd (st : WalkState) : WalkState :=
  match st with
  | ⟨o, fs, ds, mf, act, ig, sp, vi⟩ => ⟨o, fs, ds, mf, act - 1, ig, sp, vi⟩

/-- Directory-scan bookkeeping of search.c line 153: bump the
dirs-scanned counter (this happens before `opendir`, so it also happens
for paths that turn out not to be directories). -/
def bumpDirs (st : WalkState) : WalkState :=
  match st with
  | ⟨o, fs, ds, mf, act, ig, sp, vi⟩ => ⟨o, fs, ds + 1, mf, act, ig, sp, vi⟩

/-- Ghost bookkeeping: record that this directory was actually opened and
enumerated. -/
def markVisited (path : String) (st : WalkState) : WalkState :=
  match st with
  | ⟨o, fs, ds, mf, act, ig, sp, vi⟩ => ⟨o, fs, ds, mf, act, ig, sp, vi ++ [path]⟩

/-- Release of the locally loaded ignore set at the end of the entry loop
(search.c lines 274-277). -/
def releaseLocal : Option IgRef → WalkState → WalkState
  | some l, st => rcDecr l.1 st
  | none, st => st

/-- Per-entry skip decision of search.c lines 161-187: dot entries,
hidden entries (when enabled), excluded basenames, and basenames matched
by the local or the inherited ignore set (when ignore processing is on)
are skipped entirely — they are neither reported nor recursed into. -/
def skipEntry (cfg : SearchConfig) (loc pig : Option IgRef) (name : String) : Bool :=
  (name == ".") || (name == "..") ||
  (cfg.noHidden && headIsChar '.' name) ||
  (cfg.excludeDirs.contains name) ||
  (cfg.ignoreVcs && (igTest loc name || igTest pig name))

/-- Filter evaluation and match bookkeeping for one entry (search.c lines
189-244): the content scan's sink writes are appended first, then, on a
positive decision, the counters are bumped and the match handler runs. -/
def entryStep (cfg : SearchConfig) (path name : String) (child : FSNode)
    (st : WalkState) : WalkState :=
  match evalFilter cfg name (path ++ "/" ++ name) child, st with
  | (mtc, ems), ⟨o, fs, ds, mf, act, ig, sp, vi⟩ =>
    if mtc = true then
      recordMatch cfg (path ++ "/" ++ name) child ⟨o ++ ems, fs, ds, mf, act, ig, sp, vi⟩
    else ⟨o ++ ems, fs, ds, mf, act, ig, sp, vi⟩

/-- Child-task construction bookkeeping of search.c lines 247-262: the
chosen forwarded ignore set's refcount is incremented, the spawn is
recorded (ghost), and the active-task counter is incremented before
submission. -/
def spawnPrep (full : String) (child : FSNode) (fw : Option IgRef) (st : WalkState) : WalkState :=
  match (match fw with | some f => rcIncr f.1 st | none => st) with
  | ⟨o, fs, ds, mf, act, ig, sp, vi⟩ =>
    ⟨o, fs, ds, mf, act + 1, ig, sp ++ [(full, typeCharOf child)], vi⟩

/-- Submission-failure rollback of search.c lines 263-269: the active
counter is decremented and the refcount increment is undone; the task is
freed and the entry loop continues. -/
def spawnFail (fw : Option IgRef) (st : WalkState) : WalkState :=
  match st with
  | ⟨o, fs, ds, mf, act, ig, sp, vi⟩ =>
    match fw with
    | some f => rcDecr f.1 ⟨o, fs, ds, mf, act - 1, ig, sp, vi⟩
    | none => ⟨o, fs, ds, mf, act - 1, ig, sp, vi⟩

/-- The forwarded ignore set for a child task (search.c lines 252-261):
the locally loaded set if one exists, else the inherited set. -/
def fwChoice : Option IgRef → Option IgRef → Option IgRef
  | some l, _ => some l
  | none, pig => pig

mutual
/-- Translated from search.c `search_directory`: one task processes one
directory.  Depth gate, dirs-scanned bump, opendir (fails on non-dirs:
counter already bumped, then cleanup), local ignore load, entry loop,
local ignore release, task cleanup.  Note that, faithfully to the source,
the task does NOT release its inherited ignore set `pig` in its cleanup. -/
def walkNode (cfg : SearchConfig) (ok : String → Bool) (n : FSNode) (path : String)
    (depth : Int) (pig : Option IgRef) (st : WalkState) : WalkState :=
  if ¬ cfg.maxDepth = -1 ∧ cfg.maxDepth < depth then taskEnd st
  else
    match n with
    | .dir _ _ _ _ ign entries =>
      match (if cfg.ignoreVcs then loadIgnore ign (markVisited path (bumpDirs st))
             else (none, markVisited path (bumpDirs st))) with
      | (loc, st1) =>
        taskEnd (releaseLocal loc (walkEntries cfg ok entries path depth loc pig st1))
    | _ => taskEnd (bumpDirs st)
termination_by structural n

/-- Translated from the entry loop of `search_directory` (lines 160-272):
each entry is either skipped, or filtered and possibly reported, and for
subdirectories within the recursion gate a child task is prepared and
submitted — on success the child runs (sequentialised as an immediate
recursive call), on failure the bookkeeping is rolled back. -/
def walkEntries (cfg : SearchConfig) (ok : String → Bool) (es : FSEntries) (path : String)
    (depth : Int) (loc pig : Option IgRef) (st : WalkState) : WalkState :=
  match es with
  | .nil => st
  | .cons name child rest =>
    walkEntries cfg ok rest path depth loc pig
      (if skipEntry cfg loc pig name = true then st
       else
         let st2 := entryStep cfg path name child st
         if child.isDir = true ∧ (cfg.maxDepth = -1 ∨ depth < cfg.maxDepth) then
           if ok (path ++ "/" ++ name) then
             walkNode cfg ok child (path ++ "/" ++ name) (depth + 1) (fwChoice loc pig)
               (spawnPrep (path ++ "/" ++ name) child (fwChoice loc pig) st2)
           else spawnFail (fwChoice loc pig) (spawnPrep (path ++ "/" ++ name) child (fwChoice loc pig) st2)
         else st2)
termination_by structural es
end

def initState : WalkState where
  out := []
  filesScanned := 0
  dirsScanned := 0
  matchesFound := 0
  activeTasks := 0
  igsets := []
  spawned := []
  visited := []

/-- Translated from main.c's seeding (lines 135-148): format preamble,
active counter set to 1, the initial task for the root directory at depth
0 with no inherited ignore set. -/
def runSearch (cfg : SearchConfig) (ok : String → Bool) (root : FSNode) : WalkState :=
  let st0 := initState
  let st1 :=
    if cfg.outputFormat = "json" then { st0 with out := st0.out ++ ["[\n"] }
    else if cfg.outputFormat = "csv" then { st0 with out := st0.out ++ ["path,type,size,mtime\n"] }
    else st0
  let st2 := { st1 with activeTasks := 1 }
  walkNode cfg ok root cfg.rootDir 0 none st2

/-- Translated from main.c lines 159-165: after the walk, JSON output is
terminated by seeking two bytes back (when at least one match was
printed) and writing a newline followed by the closing bracket.  On a
seekable stream `fseek(fp, -2, SEEK_CUR)` followed by the three written
bytes nets to: drop the last two bytes, append `"\n]\n"`. -/
def dropLast2 (s : String) : String :=
  String.mk (s.toList.take (s.toList.length - 2))

def finalStream (cfg : SearchConfig) (ok : String → Bool) (root : FSNode) : String :=
  let st := runSearch cfg ok root
  let s := String.join st.out
  if cfg.outputFormat = "json" then
    if 0 < st.matchesFound then dropLast2 s ++ "\n" ++ "]\n"
    else s ++ "]\n"
  else s

/-- Modelled from the spec: leading-integer parsing as libc `strtoll`
(not part of src/) performs it on the filter argument strings: an
optional sign followed by decimal digits; returns the value and the
unconsumed rest, or none when no digits are found. -/
def takeDigits : List Char → List Char × List Char
  | [] => ([], [])
  | c :: cs =>
    if c.isDigit then
      let r := takeDigits cs
      (c :: r.1, r.2)
    else ([], c :: cs)

def digitsToNat (ds : List Char) : Nat :=
  ds.foldl (fun a c => a * 10 + (c.toNat - 48)) 0

def parseLeadingInt (s : List Char) : Option (Int × List Char) :=
  match s with
  | '+' :: rest =>
    let r := takeDigits rest
    if r.1.isEmpty then none else some ((digitsToNat r.1 : Int), r.2)
  | '-' :: rest =>
    let r := takeDigits rest
    if r.1.isEmpty then none else some (-(digitsToNat r.1 : Int), r.2)
  | _ =>
    let r := takeDigits s
    if r.1.isEmpty then none else some ((digitsToNat r.1 : Int), r.2)

/-- Translated from utils.c `parse_size_string`: leading number, then a
single suffix character (uppercased) with fall-through scaling G→M→K by
factors of 1024; no suffix means bytes; any other suffix character is an
error (−1).  Note: `B` is NOT an accepted suffix, and characters after
the suffix are never examined. -/
def parse_size_string (s : String) : Int :=
  match parseLeadingInt s.toList with
  | none => -1
  | some (n, rest) =>
    match rest with
    | [] => n
    | c :: _ =>
      let u := c.toUpper
      if u = 'G' then ((n * 1024) * 1024) * 1024
      else if u = 'M' then (n * 1024) * 1024
      else if u = 'K' then n * 1024
      else -1

/-- Translated from utils.c `parse_time_string`: leading number of days,
optionally followed by `d`/`D` (anything after it is not examined);
result in seconds, −1 on parse error. -/
def parse_time_string (s : String) : Int :=
  match parseLeadingInt s.toList with
  | none => -1
  | some (n, rest) =>
    match rest with
    | [] => ((n * 24) * 60) * 60
    | c :: _ => if c.toUpper = 'D' then ((n * 24) * 60) * 60 else -1

/-- Translated from main.c case 1001 (`--size`): a leading `+`/`-` sets
the comparator (1 / −1, consumed), otherwise the comparator is 0; the
remainder is parsed by `parse_size_string`; a negative result is the
setup error "Invalid size format." (program exits 1 before any walk). -/
def parseSizeArg (s : String) : Except String (Int × Int) :=
  let pr : Int × List Char :=
    match s.toList with
    | '+' :: r => (1, r)
    | '-' :: r => (-1, r)
    | r => (0, r)
  let v := parse_size_string (String.mk pr.2)
  if v < 0 then Except.error "Invalid size format." else Except.ok (pr.1, v)

/-- Translated from main.c case 1002 (`--mtime`): same prefix handling as
`--size`, remainder parsed by `parse_time_string`. -/
def parseMtimeArg (s : String) : Except String (Int × Int) :=
  let pr : Int × List Char :=
    match s.toList with
    | '+' :: r => (1, r)
    | '-' :: r => (-1, r)
    | r => (0, r)
  let v := parse_time_string (String.mk pr.2)
  if v < 0 then Except.error "Invalid mtime format." else Except.ok (pr.1, v)

/-- Translated from main.c's overall flow for the size option: when the
`--size` argument fails to parse, `main` returns 1 before creating the
pool or seeding any walk (no output); otherwise the walk runs with the
parsed comparator and threshold and `main` returns 0 after it. -/
def mainWithSizeArg (s : String) (cfg : SearchConfig) (ok : String → Bool)
    (root : FSNode) : Int × List String :=
  match parseSizeArg s with
  | Except.error _ => (1, [])
  | Except.ok pr =>
    (0, (runSearch { cfg with sizeOp := pr.1, sizeFilter := pr.2 } ok root).out)

/-- Spec-side restatement of filter step 1 as a standalone pass/fail
predicate (the entry's type intersects the mask). -/
def typePass (cfg : SearchConfig) (n : FSNode) : Bool :=
  if (n.isDir = true ∧ cfg.typeMask &&& 2 ≠ 0) ∨
     (n.isFile = true ∧ cfg.typeMask &&& 1 ≠ 0) ∨
     (n.isLink = true ∧ cfg.typeMask &&& 4 ≠ 0) then true else false

/-- Spec-side pass predicate for the size filter: inactive when no filter
is set; otherwise only regular files whose size stands in the configured
relation to the threshold pass. -/
def sizePass (cfg : SearchConfig) (n : FSNode) : Bool :=
  if 0 ≤ cfg.sizeFilter then
    n.isFile &&
      (if 0 < cfg.sizeOp then decide (cfg.sizeFilter < n.sizeN)
       else if cfg.sizeOp < 0 then decide (n.sizeN < cfg.sizeFilter)
       else decide (n.sizeN = cfg.sizeFilter))
  else true

/-- Spec-side pass predicate for the mtime filter (as the code computes
it: strict comparisons, and no constraint at all for the no-prefix
comparator). -/
def mtimePass (cfg : SearchConfig) (n : FSNode) : Bool :=
  if 0 ≤ cfg.mtimeFilter then
    n.isFile &&
      (if cfg.mtimeOp < 0 then decide (cfg.now - n.mtimeN < cfg.mtimeFilter)
       else if 0 < cfg.mtimeOp then decide (cfg.mtimeFilter < cfg.now - n.mtimeN)
       else true)
  else true

/-- Spec-side pass predicate for the extension filter. -/
def extPass (cfg : SearchConfig) (name : String) (n : FSNode) : Bool :=
  match cfg.extension with
  | none => true
  | some ext => n.isFile && ends_with name ext cfg.ignoreCase

/-- Spec-side pass predicate for the content filter: only regular files
whose scan reports a match pass. -/
def contentPass (cfg : SearchConfig) (full : String) (n : FSNode) : Bool :=
  match cfg.contentPred with
  | none => true
  | some pred => n.isFile && (scanLines pred cfg.withLineNumber full n.contentN 1).1

/-- Spec-side pass predicate for the owner filter. -/
def ownerPass (cfg : SearchConfig) (n : FSNode) : Bool :=
  !cfg.ownerEnabled || decide (n.uidN = cfg.ownerFilter)

/-- Spec-side pass predicate for the permission filter. -/
def permPass (cfg : SearchConfig) (n : FSNode) : Bool :=
  !cfg.permsEnabled || decide (n.permsN &&& 511 = cfg.permsFilter)

/-- Line enumeration with a starting index, used to state which lines the
content scan emits. -/
def enumFrom : Nat → List String → List (Nat × String)
  | _, [] => []
  | k, l :: ls => (k, l) :: enumFrom (k + 1) ls

/-- Substring test at the head of a character list. -/
def subAt : List Char → List Char → Bool
  | [], _ => true
  | _ :: _, [] => false
  | a :: as, b :: bs => (a == b) && subAt as bs

/-- Substring containment; models a POSIX regex consisting only of
literal characters, which matches a line iff the line contains the
pattern as a substring. -/
def hasSubstring (needle : List Char) : List Char → Bool
  | [] => subAt needle []
  | c :: rest => subAt needle (c :: rest) || hasSubstring needle rest

/-- The content predicate of the concrete scenario: the regex `TOKEN=`. -/
def tokenPred (l : String) : Bool := hasSubstring "TOKEN=".toList l.toList

/-- A submission oracle under which every `threadpool_add` succeeds. -/
def okAll : String → Bool := fun _ => true

/-- Configuration whose only active filter is an mtime filter, with the
given comparator, threshold (seconds) and current time. -/
def mtimeCfg (op : Int) (t : Nat) (now : Int) : SearchConfig :=
  { defaultConfig with mtimeOp := op, mtimeFilter := (t : Int), now := now }

/-- A regular file with the given mtime, all other filters irrelevant. -/
def mtimeProbe (mt : Int) : FSNode := FSNode.file 10 mt 0 420 []

/-- The tree of concrete scenarios 1 and 2 of the spec:
`a/b/c.txt`, `a/b/d.log`, `a/e.txt`. -/
def treeC2 : FSNode :=
  .dir 4096 0 0 493 none (entriesOfList [
    ("b", .dir 4096 0 0 493 none (entriesOfList [
      ("c.txt", .file 3 0 0 420 []),
      ("d.log", .file 3 0 0 420 [])])),
    ("e.txt", .file 3 0 0 420 [])])

/-- Configuration of concrete scenario 2: pattern `.*` (matches every
name), start directory `a`, max depth 1. -/
def cfgC2 : SearchConfig := { defaultConfig with rootDir := "a", maxDepth := 1 }

/-- Default configuration started at directory `a`. -/
def cfgRootA : SearchConfig := { defaultConfig with rootDir := "a" }

/-- Tree for the ignore-inheritance counterexample: the root carries an
ignore file with pattern `secret*`; directory `b` carries the given
ignore file (empty or absent); `b/c/secret.txt` sits two levels below. -/
def tree4 (bIgn : Option (List String)) : FSNode :=
  .dir 4096 0 0 493 (some ["secret*"]) (entriesOfList [
    ("b", .dir 4096 0 0 493 bIgn (entriesOfList [
      ("c", .dir 4096 0 0 493 none (entriesOfList [
        ("secret.txt", .file 3 0 0 420 [])]))]))])

/-- Tree for the refcount claims: the root carries an ignore file with
one pattern and has a single subdirectory. -/
def tree6 : FSNode :=
  .dir 4096 0 0 493 (some ["x"]) (entriesOfList [
    ("b", .dir 4096 0 0 493 none .nil)])

/-- Tree with a single matching regular file, for the JSON claim. -/
def tree7 : FSNode :=
  .dir 4096 0 0 493 none (entriesOfList [("x", .file 7 5 0 420 [])])

/-- JSON output configuration rooted at `a`. -/
def cfg7 : SearchConfig := { defaultConfig with rootDir := "a", outputFormat := "json" }

/-- Tree of concrete scenario 5: `a/secret.txt` holds three lines, the
second containing `TOKEN=abc`. -/
def tree8 : FSNode :=
  .dir 4096 0 0 493 none (entriesOfList [
    ("secret.txt", .file 30 0 0 420 ["alpha", "TOKEN=abc", "gamma"])])

/-- Configuration of concrete scenario 5: `--content 'TOKEN='
--with-line-number`, rooted at `a`. -/
def cfg8 : SearchConfig :=
  { defaultConfig with rootDir := "a", contentPred := some tokenPred, withLineNumber := true }

/-- Tree for the submission-failure claim: root has an ignore file with
one pattern, a subdirectory `b` containing a file, and a sibling file. -/
def tree10 : FSNode :=
  .dir 4096 0 0 493 (some ["x"]) (entriesOfList [
    ("b", .dir 4096 0 0 493 none (entriesOfList [
      ("z.txt", .file 3 0 0 420 [])])),
    ("c.txt", .file 3 0 0 420 [])])

/-- Oracle that fails the submission for the child task `a/b` only. -/
def ok10 : String → Bool := fun p => !(p == "a/b")

/-- Helper: on a configuration whose only active filter is the mtime
filter, the filter chain reduces to the mtime step applied to a positive
match. -/
theorem evalFilter_mtimeCfg (op : Int) (t : Nat) (now mt : Int) :
    (evalFilter (mtimeCfg op t now) "f" "d/f" (mtimeProbe mt)).1 =
      mtimeStep (mtimeCfg op t now) (mtimeProbe mt) true := by
  unfold evalFilter contentStep ownerStep permStep extStep sizeStep nameStep typeStep
  simp [mtimeCfg, defaultConfig, mtimeProbe, FSNode.isFile, FSNode.isDir, FSNode.isLink]

/-- C1 (amended): with an mtime filter configured (threshold `t` seconds,
comparator `op`), a regular file of age `now − mt` matches iff: for the
newer-than comparator (`-`, op < 0) the age is strictly below the
threshold; for the older-than comparator (`+`, op > 0) the age is
strictly above the threshold; and for the no-prefix comparator (op = 0)
always — the code imposes no constraint at all in that case. -/
theorem mtime_filter_strict (op : Int) (t : Nat) (now mt : Int) :
    (evalFilter (mtimeCfg op t now) "f" "d/f" (mtimeProbe mt)).1 =
      (if op < 0 then decide (now - mt < (t : Int))
       else if 0 < op then decide ((t : Int) < now - mt)
       else true) := by
  rw [evalFilter_mtimeCfg]
  unfold mtimeStep
  simp only [mtimeCfg, mtimeProbe, FSNode.isFile, FSNode.mtimeN]
  split_ifs <;> (try rfl) <;> (try simp_all) <;> (try omega)

/-- C1 (counterexample): the spec's comparators are non-strict (at least /
at most / exactly), but at age exactly equal to the threshold the code
rejects for both `+` and `-`, and with no prefix it accepts a file whose
age differs from the threshold.  Concretely, `--mtime +1d` parses to
comparator 1 with threshold 86400 s; a file of age exactly 86400 s is
NOT matched (the claim requires it to match); symmetrically for `-1d`;
and with `--mtime 1d` (exactly) a file of age 0 ≠ 86400 IS matched. -/
theorem mtime_filter_claim_cex :
    parseMtimeArg "+1d" = Except.ok (1, 86400) ∧
    parseMtimeArg "-1d" = Except.ok (-1, 86400) ∧
    (evalFilter (mtimeCfg 1 86400 86400) "f" "d/f" (mtimeProbe 0)).1 = false ∧
    (evalFilter (mtimeCfg (-1) 86400 86400) "f" "d/f" (mtimeProbe 0)).1 = false ∧
    (evalFilter (mtimeCfg 0 86400 86400) "f" "d/f" (mtimeProbe 86400)).1 = true := by
  refine ⟨by rfl, by rfl, by decide, by decide, by decide⟩

/-- C2 (counterexample): with pattern `.*`, root `a` and max depth 1, the
walk DOES output `a/b/c.txt` (the claim says it must not): a task for
`a/b` is created at depth 1, and the depth gate `1 > 1` does not stop its
enumeration. -/
theorem maxdepth_one_cex :
    ((runSearch cfgC2 okAll treeC2).out.contains
      "a/b/c.txt\x1B[0m \x1B[90m[f]\x1B[0m\n") = true := by decide

/-- C2 (amended): on the tree `a/b/c.txt`, `a/b/d.log`, `a/e.txt` with
pattern `.*` and max depth 1, the walk outputs exactly `a/b`, `a/b/c.txt`,
`a/b/d.log` and `a/e.txt` (in the sequentialised model's order): depth-1
directories are still enumerated, so their entries appear too. -/
theorem maxdepth_one_output :
    (runSearch cfgC2 okAll treeC2).out =
      ["a/b\x1B[0m \x1B[90m[d]\x1B[0m\n",
       "a/b/c.txt\x1B[0m \x1B[90m[f]\x1B[0m\n",
       "a/b/d.log\x1B[0m \x1B[90m[f]\x1B[0m\n",
       "a/e.txt\x1B[0m \x1B[90m[f]\x1B[0m\n"] := by decide

/-- C6: after a complete walk of a tree whose root ignore file (one
pattern `x`) was forwarded to one child task, the final reference count
of the loaded set is 1 and its storage was never freed — the inherited
reference is never released by the child task's cleanup, contradicting
the claim that every set's count transitions to exactly zero. -/
theorem ignore_refcount_leak :
    (runSearch cfgRootA okAll tree6).igsets =
      [{ pats := ["x"], rc := 1, freed := false }] := by decide

/-- C7: on a seekable stream, the seeder's `fseek(-2)` fix-up assumes the
sink left a trailing `,\n`, but the sink writes the separator BEFORE each
record, so the fix-up overwrites the final two bytes of the last record:
with one match the complete JSON stream ends `"mtime":` followed by the
bracket — not a well-formed JSON array. -/
theorem json_truncates_last_record :
    finalStream cfg7 okAll tree7 =
      "[\n\x7b\"path\":\"a/x\",\"type\":\"f\",\"size\":7,\"mtime\":\n]\n" := by decide

/-- C9 (counterexample): the suffix `B` is rejected by
`parse_size_string` (only K, M, G or no suffix are accepted), so
`--size 10B` is a setup error and the program exits 1 before any walk —
the claim instead lists B among the accepted suffixes denoting bytes. -/
theorem size_suffix_b_rejected :
    parse_size_string "10B" = -1 ∧
    parseSizeArg "10B" = Except.error "Invalid size format." ∧
    mainWithSizeArg "10B" defaultConfig okAll tree7 = (1, []) := by
  refine ⟨by rfl, by rfl, by rfl⟩

/-- C9 (amended): the size argument accepts an optional `+`/`-` prefix
and a suffix in {K, M, G} or no suffix: no suffix means bytes and K, M, G
scale by successive factors of 1024; any other suffix (including `B`)
makes `parse_size_string` return −1, and then `main` exits 1 before any
walk, producing no output. -/
theorem size_filter_format :
    (∀ (s : String) (v : Int), parseLeadingInt s.toList = some (v, []) →
        parse_size_string s = v) ∧
    (∀ (s : String) (v : Int) (c : Char) (r : List Char),
        parseLeadingInt s.toList = some (v, c :: r) →
        parse_size_string s =
          (if c.toUpper = 'G' then ((v * 1024) * 1024) * 1024
           else if c.toUpper = 'M' then (v * 1024) * 1024
           else if c.toUpper = 'K' then v * 1024
           else -1)) ∧
    (∀ (s : String) (e : String) (cfg : SearchConfig) (ok : String → Bool) (root : FSNode),
        parseSizeArg s = Except.error e → mainWithSizeArg s cfg ok root = (1, [])) := by
  refine ⟨?_, ?_, ?_⟩
  · intro s v h
    unfold parse_size_string
    rw [h]
  · intro s v c r h
    unfold parse_size_string
    rw [h]
  · intro s e cfg ok root h
    unfold mainWithSizeArg
    rw [h]

/-- Witness for C9's amended theorem: applied at `7K` (yielding 7168
bytes) and at the error case `10B`. -/
theorem size_filter_format_witness :
    parse_size_string "7K" = 7168 ∧
    mainWithSizeArg "10B" { defaultConfig with rootDir := "a" } okAll tree7 = (1, []) := by
  constructor
  · have h := size_filter_format.2.1 "7K" 7 'K' [] (by rfl)
    simpa using h
  · exact size_filter_format.2.2 "10B" "Invalid size format."
      { defaultConfig with rootDir := "a" } okAll tree7 (by rfl)

/-- Helper: with the line-number flag, the content scan emits exactly the
matching lines, each formatted `path:number:text`, in file order. -/
theorem scanLines_wln_emits (pred : String → Bool) (path : String) :
    ∀ (ls : List String) (k : Nat),
      (scanLines pred true path ls k).2 =
        (enumFrom k ls).filterMap (fun pl =>
          if pred pl.2 then some (path ++ ":" ++ toString pl.1 ++ ":" ++ pl.2 ++ "\n") else none)
  | [], k => by simp [scanLines, enumFrom]
  | l :: ls, k => by
    by_cases h : pred l <;>
      simp [scanLines, enumFrom, h, scanLines_wln_emits pred path ls (k + 1)]

/-- C8: with a content regex and the line-number flag, (1) the scan emits
exactly the matching lines as `path:number:text` records; (2) the match
handler is a no-op, so no separate path-only record is written; (3) in
concrete scenario 5 (`a/secret.txt` with `TOKEN=abc` on line 2) the
complete sink output is exactly `a/secret.txt:2:TOKEN=abc`. -/
theorem content_line_mode :
    (∀ (pred : String → Bool) (path : String) (ls : List String) (k : Nat),
        (scanLines pred true path ls k).2 =
          (enumFrom k ls).filterMap (fun pl =>
            if pred pl.2 then some (path ++ ":" ++ toString pl.1 ++ ":" ++ pl.2 ++ "\n") else none)) ∧
    (∀ (cfg : SearchConfig) (path : String) (c : Char) (n : FSNode) (st : WalkState)
        (p : String → Bool),
        handleMatch { cfg with withLineNumber := true, contentPred := some p } path c n st = st) ∧
    (runSearch cfg8 okAll tree8).out = ["a/secret.txt:2:TOKEN=abc\n"] := by
  refine ⟨scanLines_wln_emits, ?_, by decide⟩
  intro cfg path c n st p
  unfold handleMatch
  simp

/-- Frame lemma: task cleanup only changes the active-task counter. -/
theorem taskEnd_spawned (st : WalkState) : (taskEnd st).spawned = st.spawned := by
  cases st; rfl

theorem taskEnd_visited (st : WalkState) : (taskEnd st).visited = st.visited := by
  cases st; rfl

theorem taskEnd_act (st : WalkState) : (taskEnd st).activeTasks = st.activeTasks - 1 := by
  cases st; rfl

theorem taskEnd_out (st : WalkState) : (taskEnd st).out = st.out := by
  cases st; rfl

theorem taskEnd_matches (st : WalkState) : (taskEnd st).matchesFound = st.matchesFound := by
  cases st; rfl

/-- Frame lemma: refcount operations only change the ignore-set list. -/
theorem rcIncr_spawned (i : Nat) (st : WalkState) : (rcIncr i st).spawned = st.spawned := by
  cases st; rfl

theorem rcIncr_visited (i : Nat) (st : WalkState) : (rcIncr i st).visited = st.visited := by
  cases st; rfl

theorem rcIncr_act (i : Nat) (st : WalkState) : (rcIncr i st).activeTasks = st.activeTasks := by
  cases st; rfl

theorem rcIncr_out (i : Nat) (st : WalkState) : (rcIncr i st).out = st.out := by
  cases st; rfl

theorem rcIncr_matches (i : Nat) (st : WalkState) : (rcIncr i st).matchesFound = st.matchesFound := by
  cases st; rfl

theorem rcDecr_spawned (i : Nat) (st : WalkState) : (rcDecr i st).spawned = st.spawned := by
  cases st; rfl

theorem rcDecr_visited (i : Nat) (st : WalkState) : (rcDecr i st).visited = st.visited := by
  cases st; rfl

theorem rcDecr_act (i : Nat) (st : WalkState) : (rcDecr i st).activeTasks = st.activeTasks := by
  cases st; rfl

theorem rcDecr_out (i : Nat) (st : WalkState) : (rcDecr i st).out = st.out := by
  cases st; rfl

theorem rcDecr_matches (i : Nat) (st : WalkState) : (rcDecr i st).matchesFound = st.matchesFound := by
  cases st; rfl

/-- Frame lemma: loading an ignore file only changes the ignore-set list. -/
theorem loadIgnore_spawned (ign : Option (List String)) (st : WalkState) :
    (loadIgnore ign st).2.spawned = st.spawned := by
  cases ign <;> cases st <;> rfl

theorem loadIgnore_visited (ign : Option (List String)) (st : WalkState) :
    (loadIgnore ign st).2.visited = st.visited := by
  cases ign <;> cases st <;> rfl

theorem loadIgnore_act (ign : Option (List String)) (st : WalkState) :
    (loadIgnore ign st).2.activeTasks = st.activeTasks := by
  cases ign <;> cases st <;> rfl

theorem loadIgnore_out (ign : Option (List String)) (st : WalkState) :
    (loadIgnore ign st).2.out = st.out := by
  cases ign <;> cases st <;> rfl

theorem loadIgnore_matches (ign : Option (List String)) (st : WalkState) :
    (loadIgnore ign st).2.matchesFound = st.matchesFound := by
  cases ign <;> cases st <;> rfl

/-- Frame lemma: match bookkeeping does not touch the ghost spawn and
visit logs, the active counter, or the ignore sets. -/
theorem recordMatch_spawned (cfg : SearchConfig) (full : String) (n : FSNode)
    (st : WalkState) : (recordMatch cfg full n st).spawned = st.spawned := by
  cases st
  simp only [recordMatch, handleMatch]
  split <;> rfl

theorem recordMatch_visited (cfg : SearchConfig) (full : String) (n : FSNode)
    (st : WalkState) : (recordMatch cfg full n st).visited = st.visited := by
  cases st
  simp only [recordMatch, handleMatch]
  split <;> rfl

theorem recordMatch_act (cfg : SearchConfig) (full : String) (n : FSNode)
    (st : WalkState) : (recordMatch cfg full n st).activeTasks = st.activeTasks := by
  cases st
  simp only [recordMatch, handleMatch]
  split <;> rfl

theorem bumpDirs_act (st : WalkState) : (bumpDirs st).activeTasks = st.activeTasks := by
  cases st; rfl

theorem bumpDirs_spawned (st : WalkState) : (bumpDirs st).spawned = st.spawned := by
  cases st; rfl

theorem bumpDirs_visited (st : WalkState) : (bumpDirs st).visited = st.visited := by
  cases st; rfl

theorem markVisited_act (path : String) (st : WalkState) :
    (markVisited path st).activeTasks = st.activeTasks := by
  cases st; rfl

theorem markVisited_spawned (path : String) (st : WalkState) :
    (markVisited path st).spawned = st.spawned := by
  cases st; rfl

theorem markVisited_visited (path : String) (st : WalkState) :
    (markVisited path st).visited = st.visited ++ [path] := by
  cases st; rfl

theorem releaseLocal_act (loc : Option IgRef) (st : WalkState) :
    (releaseLocal loc st).activeTasks = st.activeTasks := by
  cases loc with
  | none => rfl
  | some l => exact rcDecr_act l.1 st

theorem releaseLocal_spawned (loc : Option IgRef) (st : WalkState) :
    (releaseLocal loc st).spawned = st.spawned := by
  cases loc with
  | none => rfl
  | some l => exact rcDecr_spawned l.1 st

theorem releaseLocal_visited (loc : Option IgRef) (st : WalkState) :
    (releaseLocal loc st).visited = st.visited := by
  cases loc with
  | none => rfl
  | some l => exact rcDecr_visited l.1 st

/-- Frame lemma for the conditional ignore-file load in `walkNode`. -/
theorem loadOpt_act (b : Bool) (ign : Option (List String)) (s : WalkState) :
    ((if b then loadIgnore ign s else (none, s)).2).activeTasks = s.activeTasks := by
  cases b with
  | false => rfl
  | true => exact loadIgnore_act ign s

theorem loadOpt_spawned (b : Bool) (ign : Option (List String)) (s : WalkState) :
    ((if b then loadIgnore ign s else (none, s)).2).spawned = s.spawned := by
  cases b with
  | false => rfl
  | true => exact loadIgnore_spawned ign s

theorem loadOpt_visited (b : Bool) (ign : Option (List String)) (s : WalkState) :
    ((if b then loadIgnore ign s else (none, s)).2).visited = s.visited := by
  cases b with
  | false => rfl
  | true => exact loadIgnore_visited ign s

theorem entryStep_act (cfg : SearchConfig) (path name : String) (child : FSNode)
    (st : WalkState) : (entryStep cfg path name child st).activeTasks = st.activeTasks := by
  cases st
  unfold entryStep
  rcases hf : evalFilter cfg name (path ++ "/" ++ name) child with ⟨mtc, ems⟩
  simp only [hf]
  split
  · rw [recordMatch_act]
  · rfl

theorem entryStep_spawned (cfg : SearchConfig) (path name : String) (child : FSNode)
    (st : WalkState) : (entryStep cfg path name child st).spawned = st.spawned := by
  cases st
  unfold entryStep
  rcases hf : evalFilter cfg name (path ++ "/" ++ name) child with ⟨mtc, ems⟩
  simp only [hf]
  split
  · rw [recordMatch_spawned]
  · rfl

theorem entryStep_visited (cfg : SearchConfig) (path name : String) (child : FSNode)
    (st : WalkState) : (entryStep cfg path name child st).visited = st.visited := by
  cases st
  unfold entryStep
  rcases hf : evalFilter cfg name (path ++ "/" ++ name) child with ⟨mtc, ems⟩
  simp only [hf]
  split
  · rw [recordMatch_visited]
  · rfl

theorem spawnPrep_act (full : String) (child : FSNode) (fw : Option IgRef) (st : WalkState) :
    (spawnPrep full child fw st).activeTasks = st.activeTasks + 1 := by
  cases st
  cases fw with
  | none => rfl
  | some f => simp [spawnPrep, rcIncr]

theorem spawnPrep_spawned (full : String) (child : FSNode) (fw : Option IgRef) (st : WalkState) :
    (spawnPrep full child fw st).spawned = st.spawned ++ [(full, typeCharOf child)] := by
  cases st
  cases fw with
  | none => rfl
  | some f => simp [spawnPrep, rcIncr]

theorem spawnPrep_visited (full : String) (child : FSNode) (fw : Option IgRef) (st : WalkState) :
    (spawnPrep full child fw st).visited = st.visited := by
  cases st
  cases fw with
  | none => rfl
  | some f => simp [spawnPrep, rcIncr]

theorem spawnFail_act (fw : Option IgRef) (st : WalkState) :
    (spawnFail fw st).activeTasks = st.activeTasks - 1 := by
  cases st
  cases fw with
  | none => rfl
  | some f => simp [spawnFail, rcDecr]

theorem spawnFail_spawned (fw : Option IgRef) (st : WalkState) :
    (spawnFail fw st).spawned = st.spawned := by
  cases st
  cases fw with
  | none => rfl
  | some f => simp [spawnFail, rcDecr]

theorem spawnFail_visited (fw : Option IgRef) (st : WalkState) :
    (spawnFail fw st).visited = st.visited := by
  cases st
  cases fw with
  | none => rfl
  | some f => simp [spawnFail, rcDecr]

mutual
/-- Each task's net effect on the active-task counter is exactly −1: the
submitter's increment for every child is matched by that child's own
final decrement (or by the rollback on submission failure). -/
theorem walkNode_act (cfg : SearchConfig) (ok : String → Bool) :
    ∀ (n : FSNode) (path : String) (depth : Int) (pig : Option IgRef) (st : WalkState),
      (walkNode cfg ok n path depth pig st).activeTasks = st.activeTasks - 1
  | .file sz mt u pm c, path, depth, pig, st => by
    rw [walkNode]
    · split
      · exact taskEnd_act st
      · rw [taskEnd_act, bumpDirs_act]
    · intro _ _ _ _ _ _ h
      exact FSNode.noConfusion h
  | .link sz mt u pm, path, depth, pig, st => by
    rw [walkNode]
    · split
      · exact taskEnd_act st
      · rw [taskEnd_act, bumpDirs_act]
    · intro _ _ _ _ _ _ h
      exact FSNode.noConfusion h
  | .dir sz mt u pm ign es, path, depth, pig, st => by
    rw [walkNode]
    split
    · exact taskEnd_act st
    · rcases hli : (if cfg.ignoreVcs then loadIgnore ign (markVisited path (bumpDirs st))
                    else (none, markVisited path (bumpDirs st))) with ⟨loc, st1⟩
      have h2 : (if cfg.ignoreVcs then loadIgnore ign (markVisited path (bumpDirs st))
                 else (none, markVisited path (bumpDirs st))).2 = st1 := by rw [hli]
      have h3 := loadOpt_act cfg.ignoreVcs ign (markVisited path (bumpDirs st))
      rw [h2, markVisited_act, bumpDirs_act] at h3
      simp only [hli]
      rw [taskEnd_act, releaseLocal_act, walkEntries_act cfg ok es path depth loc pig st1, h3]
termination_by structural n => n

/-- The entry loop leaves the active-task counter unchanged: every
spawned child's −1 cancels the +1 made at submission. -/
theorem walkEntries_act (cfg : SearchConfig) (ok : String → Bool) :
    ∀ (es : FSEntries) (path : String) (depth : Int) (loc pig : Option IgRef) (st : WalkState),
      (walkEntries cfg ok es path depth loc pig st).activeTasks = st.activeTasks
  | .nil, _, _, _, _, _ => by rw [walkEntries]
  | .cons name child rest, path, depth, loc, pig, st => by
    rw [walkEntries]
    rw [walkEntries_act cfg ok rest path depth loc pig]
    split
    · rfl
    · split
      · split
        · rw [walkNode_act cfg ok child, spawnPrep_act, entryStep_act]
          omega
        · rw [spawnFail_act, spawnPrep_act, entryStep_act]
          omega
      · rw [entryStep_act]
termination_by structural es => es
end

theorem typeCharOf_isDir (n : FSNode) (h : n.isDir = true) : typeCharOf n = 'd' := by
  unfold typeCharOf
  rw [h]
  rfl

mutual
/-- Ghost-spawn invariant: a task only ever creates child tasks for
directory entries, so the spawn log keeps the type tag `d` throughout. -/
theorem walkNode_spawned_dirs (cfg : SearchConfig) (ok : String → Bool) :
    ∀ (n : FSNode) (path : String) (depth : Int) (pig : Option IgRef) (st : WalkState),
      (st.spawned.all (fun pc => pc.2 == 'd')) = true →
      ((walkNode cfg ok n path depth pig st).spawned.all (fun pc => pc.2 == 'd')) = true
  | .file sz mt u pm c, path, depth, pig, st => by
    intro h
    rw [walkNode]
    · split
      · rw [taskEnd_spawned]; exact h
      · rw [taskEnd_spawned, bumpDirs_spawned]; exact h
    · intro _ _ _ _ _ _ hq
      exact FSNode.noConfusion hq
  | .link sz mt u pm, path, depth, pig, st => by
    intro h
    rw [walkNode]
    · split
      · rw [taskEnd_spawned]; exact h
      · rw [taskEnd_spawned, bumpDirs_spawned]; exact h
    · intro _ _ _ _ _ _ hq
      exact FSNode.noConfusion hq
  | .dir sz mt u pm ign es, path, depth, pig, st => by
    intro h
    rw [walkNode]
    split
    · rw [taskEnd_spawned]; exact h
    · rcases hli : (if cfg.ignoreVcs then loadIgnore ign (markVisited path (bumpDirs st))
                    else (none, markVisited path (bumpDirs st))) with ⟨loc, st1⟩
      have h2 : (if cfg.ignoreVcs then loadIgnore ign (markVisited path (bumpDirs st))
                 else (none, markVisited path (bumpDirs st))).2 = st1 := by rw [hli]
      have h3 := loadOpt_spawned cfg.ignoreVcs ign (markVisited path (bumpDirs st))
      rw [h2, markVisited_spawned, bumpDirs_spawned] at h3
      simp only [hli]
      rw [taskEnd_spawned, releaseLocal_spawned]
      exact walkEntries_spawned_dirs cfg ok es path depth loc pig st1 (h3 ▸ h)
termination_by structural n => n

/-- Entry-loop version of the ghost-spawn invariant. -/
theorem walkEntries_spawned_dirs (cfg : SearchConfig) (ok : String → Bool) :
    ∀ (es : FSEntries) (path : String) (depth : Int) (loc pig : Option IgRef) (st : WalkState),
      (st.spawned.all (fun pc => pc.2 == 'd')) = true →
      ((walkEntries cfg ok es path depth loc pig st).spawned.all (fun pc => pc.2 == 'd')) = true
  | .nil, _, _, _, _, st => by
    intro h
    rw [walkEntries]
    exact h
  | .cons name child rest, path, depth, loc, pig, st => by
    intro h
    rw [walkEntries]
    apply walkEntries_spawned_dirs cfg ok rest path depth loc pig
    split
    · exact h
    · have hstep : ((entryStep cfg path name child st).spawned.all (fun pc => pc.2 == 'd')) = true := by
        rw [entryStep_spawned]; exact h
      split
      · rename_i hgate
        have hall : ((spawnPrep (path ++ "/" ++ name) child (fwChoice loc pig)
            (entryStep cfg path name child st)).spawned.all (fun pc => pc.2 == 'd')) = true := by
          rw [spawnPrep_spawned, List.all_append, entryStep_spawned]
          simp only [h, List.all_cons, List.all_nil, Bool.and_true, Bool.true_and]
          rw [typeCharOf_isDir child hgate.1]
          rfl
        split
        · exact walkNode_spawned_dirs cfg ok child (path ++ "/" ++ name) (depth + 1)
            (fwChoice loc pig) _ hall
        · rw [spawnFail_spawned]; exact hall
      · exact hstep
termination_by structural es => es
end

mutual
/-- Ghost-visit invariant: a directory is enumerated only when it is the
walk's root or its own submission succeeded. -/
theorem walkNode_visited_ok (cfg : SearchConfig) (ok : String → Bool) (P : String → Bool) :
    ∀ (n : FSNode) (path : String) (depth : Int) (pig : Option IgRef) (st : WalkState),
      (∀ q, ok q = true → P q = true) →
      (st.visited.all P) = true → P path = true →
      ((walkNode cfg ok n path depth pig st).visited.all P) = true
  | .file sz mt u pm c, path, depth, pig, st => by
    intro _ h hp
    rw [walkNode]
    · split
      · rw [taskEnd_visited]; exact h
      · rw [taskEnd_visited, bumpDirs_visited]; exact h
    · intro _ _ _ _ _ _ hq
      exact FSNode.noConfusion hq
  | .link sz mt u pm, path, depth, pig, st => by
    intro _ h hp
    rw [walkNode]
    · split
      · rw [taskEnd_visited]; exact h
      · rw [taskEnd_visited, bumpDirs_visited]; exact h
    · intro _ _ _ _ _ _ hq
      exact FSNode.noConfusion hq
  | .dir sz mt u pm ign es, path, depth, pig, st => by
    intro hok h hp
    rw [walkNode]
    split
    · rw [taskEnd_visited]; exact h
    · rcases hli : (if cfg.ignoreVcs then loadIgnore ign (markVisited path (bumpDirs st))
                    else (none, markVisited path (bumpDirs st))) with ⟨loc, st1⟩
      have h2 : (if cfg.ignoreVcs then loadIgnore ign (markVisited path (bumpDirs st))
                 else (none, markVisited path (bumpDirs st))).2 = st1 := by rw [hli]
      have h3 := loadOpt_visited cfg.ignoreVcs ign (markVisited path (bumpDirs st))
      rw [h2, markVisited_visited, bumpDirs_visited] at h3
      have h4 : (st1.visited.all P) = true := by
        rw [h3, List.all_append]
        simp only [h, List.all_cons, List.all_nil, hp, Bool.and_true, Bool.true_and]
      simp only [hli]
      rw [taskEnd_visited, releaseLocal_visited]
      exact walkEntries_visited_ok cfg ok P es path depth loc pig st1 hok h4
termination_by structural n => n

/-- Entry-loop version of the ghost-visit invariant: children are only
walked behind a successful submission, so `P` may be instantiated with
"is the root or the submission oracle accepted this path". -/
theorem walkEntries_visited_ok (cfg : SearchConfig) (ok : String → Bool) (P : String → Bool) :
    ∀ (es : FSEntries) (path : String) (depth : Int) (loc pig : Option IgRef) (st : WalkState),
      (∀ q, ok q = true → P q = true) →
      (st.visited.all P) = true →
      ((walkEntries cfg ok es path depth loc pig st).visited.all P) = true
  | .nil, _, _, _, _, st => by
    intro _ h
    rw [walkEntries]
    exact h
  | .cons name child rest, path, depth, loc, pig, st => by
    intro hok h
    rw [walkEntries]
    apply walkEntries_visited_ok cfg ok P rest path depth loc pig _ hok
    split
    · exact h
    · have hstep : ((entryStep cfg path name child st).visited.all P) = true := by
        rw [entryStep_visited]; exact h
      split
      · split
        · rename_i hsub
          apply walkNode_visited_ok cfg ok P child (path ++ "/" ++ name) (depth + 1)
            (fwChoice loc pig) _ hok
          · rw [spawnPrep_visited]; exact hstep
          · exact hok _ hsub
        · rw [spawnFail_visited, spawnPrep_visited]; exact hstep
      · exact hstep
termination_by structural es => es
end

/-- C3: for every tree, configuration and submission oracle, every child
task ever created is for an entry whose lstat type is directory (type tag
`d`); in particular no child task is ever created for a symbolic link,
whose type tag is `l` — lstat never follows the link, so this holds even
when the link's target is a directory. -/
theorem symlinks_never_traversed :
    (∀ (cfg : SearchConfig) (ok : String → Bool) (root : FSNode),
        ((runSearch cfg ok root).spawned.all (fun pc => pc.2 == 'd')) = true) ∧
    (∀ (sz mt : Int) (u pm : Nat), typeCharOf (FSNode.link sz mt u pm) = 'l') := by
  constructor
  · intro cfg ok root
    unfold runSearch
    apply walkNode_spawned_dirs
    split
    · rfl
    · split <;> rfl
  · intro sz mt u pm
    rfl

/-- C10: (1) for every tree, configuration and submission oracle the walk
terminates with the active-task counter back at zero — every submission
increment is balanced, also on failed submissions; (2) a directory other
than the root is enumerated only if its own submission succeeded, so a
subdirectory whose submission failed is silently never searched; (3) in a
concrete run where the submission of `a/b` fails, the output contains the
records of the root's entries but nothing from below `a/b`, the ignore
set's refcount is rolled back and ends at zero (freed), the counter ends
at zero, and only the root was enumerated. -/
theorem submission_failure_soft :
    (∀ (cfg : SearchConfig) (ok : String → Bool) (root : FSNode),
        (runSearch cfg ok root).activeTasks = 0) ∧
    (∀ (cfg : SearchConfig) (ok : String → Bool) (root : FSNode),
        ((runSearch cfg ok root).visited.all
          (fun p => (p == cfg.rootDir) || ok p)) = true) ∧
    ((runSearch cfgRootA ok10 tree10).out,
     (runSearch cfgRootA ok10 tree10).igsets,
     (runSearch cfgRootA ok10 tree10).activeTasks,
     (runSearch cfgRootA ok10 tree10).visited) =
      (["a/b\x1B[0m \x1B[90m[d]\x1B[0m\n", "a/c.txt\x1B[0m \x1B[90m[f]\x1B[0m\n"],
       [{ pats := ["x"], rc := 0, freed := true }],
       0, ["a"]) := by
  refine ⟨?_, ?_, by decide⟩
  · intro cfg ok root
    unfold runSearch
    rw [walkNode_act]
    rfl
  · intro cfg ok root
    unfold runSearch
    apply walkNode_visited_ok cfg ok _ root cfg.rootDir 0 none _
    · intro q hq
      rw [hq]
      simp
    · split
      · rfl
      · split <;> rfl
    · simp

theorem typeStep_eq (cfg : SearchConfig) (n : FSNode) : typeStep cfg n = typePass cfg n := by
  unfold typeStep typePass
  by_cases h : (n.isDir = true ∧ cfg.typeMask &&& 2 ≠ 0) ∨
      (n.isFile = true ∧ cfg.typeMask &&& 1 ≠ 0) ∨
      (n.isLink = true ∧ cfg.typeMask &&& 4 ≠ 0)
  · rw [if_neg (not_not_intro h), if_pos h]
  · rw [if_pos h, if_neg h]

theorem nameStep_eq (cfg : SearchConfig) (name : String) (m : Bool) :
    nameStep cfg name m = (m && cfg.namePred name) := by
  unfold nameStep
  cases m <;> cases h : cfg.namePred name <;> simp [h]

theorem sizeStep_eq (cfg : SearchConfig) (n : FSNode) (m : Bool) :
    sizeStep cfg n m = (m && sizePass cfg n) := by
  unfold sizeStep sizePass
  cases m <;> cases hf : n.isFile <;>
    rcases lt_trichotomy cfg.sizeOp 0 with h | h | h <;>
    split_ifs <;> (try simp_all) <;> omega

theorem mtimeStep_eq (cfg : SearchConfig) (n : FSNode) (m : Bool) :
    mtimeStep cfg n m = (m && mtimePass cfg n) := by
  unfold mtimeStep mtimePass
  cases m <;> cases hf : n.isFile <;>
    rcases lt_trichotomy cfg.mtimeOp 0 with h | h | h <;>
    split_ifs <;> (try simp_all) <;> omega

theorem extStep_eq (cfg : SearchConfig) (name : String) (n : FSNode) (m : Bool) :
    extStep cfg name n m = (m && extPass cfg name n) := by
  unfold extStep extPass
  cases hx : cfg.extension <;> cases m <;> simp_all

theorem ownerStep_eq (cfg : SearchConfig) (n : FSNode) (m : Bool) :
    ownerStep cfg n m = (m && ownerPass cfg n) := by
  unfold ownerStep ownerPass
  cases m <;> cases ho : cfg.ownerEnabled <;>
    by_cases hu : n.uidN = cfg.ownerFilter <;> simp_all

theorem permStep_eq (cfg : SearchConfig) (n : FSNode) (m : Bool) :
    permStep cfg n m = (m && permPass cfg n) := by
  unfold permStep permPass
  cases m <;> cases hp : cfg.permsEnabled <;>
    by_cases hq : n.permsN &&& 511 = cfg.permsFilter <;> simp_all

theorem contentStep_fst (cfg : SearchConfig) (full : String) (n : FSNode) (m : Bool) :
    (contentStep cfg full n m).1 = (m && contentPass cfg full n) := by
  unfold contentStep contentPass
  cases hc : cfg.contentPred with
  | none => cases m <;> rfl
  | some pred =>
    cases m with
    | false => rfl
    | true =>
      cases hf : n.isFile with
      | false => simp
      | true =>
        rcases hs : scanLines pred cfg.withLineNumber full n.contentN 1 with ⟨found, ems⟩
        cases found <;> simp [hs]

theorem contentStep_snd (cfg : SearchConfig) (full : String) (n : FSNode) (m : Bool) :
    (contentStep cfg full n m).2 =
      (match cfg.contentPred with
       | none => []
       | some pred =>
         if m = true ∧ n.isFile = true
         then (scanLines pred cfg.withLineNumber full n.contentN 1).2 else []) := by
  unfold contentStep
  cases hc : cfg.contentPred with
  | none => cases m <;> rfl
  | some pred =>
    cases m with
    | false => simp
    | true =>
      cases hf : n.isFile with
      | false => simp [hf]
      | true =>
        rcases hs : scanLines pred cfg.withLineNumber full n.contentN 1 with ⟨found, ems⟩
        simp [hs, hf]

theorem evalFilter_fst (cfg : SearchConfig) (name full : String) (n : FSNode) :
    (evalFilter cfg name full n).1 =
      permStep cfg n (ownerStep cfg n
        (contentStep cfg full n
          (extStep cfg name n
            (mtimeStep cfg n
              (sizeStep cfg n
                (nameStep cfg name (typeStep cfg n)))))).1) := by
  unfold evalFilter
  rcases h : contentStep cfg full n
      (extStep cfg name n (mtimeStep cfg n (sizeStep cfg n (nameStep cfg name (typeStep cfg n))))) with ⟨m, ems⟩
  simp [h]

theorem evalFilter_snd (cfg : SearchConfig) (name full : String) (n : FSNode) :
    (evalFilter cfg name full n).2 =
      (contentStep cfg full n
        (extStep cfg name n
          (mtimeStep cfg n
            (sizeStep cfg n
              (nameStep cfg name (typeStep cfg n)))))).2 := by
  unfold evalFilter
  rcases h : contentStep cfg full n
      (extStep cfg name n (mtimeStep cfg n (sizeStep cfg n (nameStep cfg name (typeStep cfg n))))) with ⟨m, ems⟩
  simp [h]

/-- C5: the filter decision is the conjunction, in source order, of the
eight predicates (type mask, name regex, size, mtime, extension, content,
owner, permissions) with short-circuiting: the content scan — the only
step with observable side effects — emits its sink writes exactly when
the five predicates before it all passed (and a content regex is set on a
regular file); and the size, mtime, extension and content predicates,
when configured, fail for every non-regular file. -/
theorem filter_chain_spec :
    (∀ (cfg : SearchConfig) (name full : String) (n : FSNode),
      (evalFilter cfg name full n).1 =
        (typePass cfg n && cfg.namePred name && sizePass cfg n && mtimePass cfg n &&
         extPass cfg name n && contentPass cfg full n && ownerPass cfg n && permPass cfg n)) ∧
    (∀ (cfg : SearchConfig) (name full : String) (n : FSNode),
      (evalFilter cfg name full n).2 =
        (match cfg.contentPred with
         | none => []
         | some pred =>
           if (typePass cfg n && cfg.namePred name && sizePass cfg n && mtimePass cfg n &&
               extPass cfg name n) = true ∧ n.isFile = true
           then (scanLines pred cfg.withLineNumber full n.contentN 1).2 else [])) ∧
    (∀ (cfg : SearchConfig) (n : FSNode) (k : Nat), n.isFile = false →
        sizePass { cfg with sizeFilter := (k : Int) } n = false) ∧
    (∀ (cfg : SearchConfig) (n : FSNode) (k : Nat), n.isFile = false →
        mtimePass { cfg with mtimeFilter := (k : Int) } n = false) ∧
    (∀ (cfg : SearchConfig) (name : String) (n : FSNode) (e : String), n.isFile = false →
        extPass { cfg with extension := some e } name n = false) ∧
    (∀ (cfg : SearchConfig) (full : String) (n : FSNode) (p : String → Bool), n.isFile = false →
        contentPass { cfg with contentPred := some p } full n = false) := by
  refine ⟨?_, ?_, ?_, ?_, ?_, ?_⟩
  · intro cfg name full n
    rw [evalFilter_fst, permStep_eq, ownerStep_eq, contentStep_fst, extStep_eq, mtimeStep_eq,
       sizeStep_eq, nameStep_eq, typeStep_eq]
  · intro cfg name full n
    rw [evalFilter_snd, contentStep_snd, extStep_eq, mtimeStep_eq, sizeStep_eq, nameStep_eq,
       typeStep_eq]
  · intro cfg n k h
    simp [sizePass, h]
  · intro cfg n k h
    simp [mtimePass, h]
  · intro cfg name n e h
    simp [extPass, h]
  · intro cfg full n p h
    simp [contentPass, h]

/-- Witness for C5: the non-regular-file clauses applied to a concrete
symbolic link with each filter configured. -/
theorem filter_chain_spec_witness :
    sizePass { defaultConfig with sizeFilter := ((7 : Nat) : Int) } (FSNode.link 0 0 0 420) = false ∧
    mtimePass { defaultConfig with mtimeFilter := ((7 : Nat) : Int) } (FSNode.link 0 0 0 420) = false ∧
    extPass { defaultConfig with extension := some ".txt" } "x.txt" (FSNode.link 0 0 0 420) = false ∧
    contentPass { defaultConfig with contentPred := some tokenPred } "a/x" (FSNode.link 0 0 0 420) = false :=
  ⟨filter_chain_spec.2.2.1 defaultConfig (FSNode.link 0 0 0 420) 7 (by rfl),
   filter_chain_spec.2.2.2.1 defaultConfig (FSNode.link 0 0 0 420) 7 (by rfl),
   filter_chain_spec.2.2.2.2.1 defaultConfig "x.txt" (FSNode.link 0 0 0 420) ".txt" (by rfl),
   filter_chain_spec.2.2.2.2.2 defaultConfig "a/x" (FSNode.link 0 0 0 420) tokenPred (by rfl)⟩

theorem bumpDirs_out (st : WalkState) : (bumpDirs st).out = st.out := by
  cases st; rfl

theorem bumpDirs_matches (st : WalkState) : (bumpDirs st).matchesFound = st.matchesFound := by
  cases st; rfl

theorem markVisited_out (path : String) (st : WalkState) : (markVisited path st).out = st.out := by
  cases st; rfl

theorem markVisited_matches (path : String) (st : WalkState) :
    (markVisited path st).matchesFound = st.matchesFound := by
  cases st; rfl

theorem releaseLocal_out (loc : Option IgRef) (st : WalkState) :
    (releaseLocal loc st).out = st.out := by
  cases loc with
  | none => rfl
  | some l => exact rcDecr_out l.1 st

theorem releaseLocal_matches (loc : Option IgRef) (st : WalkState) :
    (releaseLocal loc st).matchesFound = st.matchesFound := by
  cases loc with
  | none => rfl
  | some l => exact rcDecr_matches l.1 st

theorem loadOpt_out (b : Bool) (ign : Option (List String)) (s : WalkState) :
    ((if b then loadIgnore ign s else (none, s)).2).out = s.out := by
  cases b with
  | false => rfl
  | true => exact loadIgnore_out ign s

theorem loadOpt_matches (b : Bool) (ign : Option (List String)) (s : WalkState) :
    ((if b then loadIgnore ign s else (none, s)).2).matchesFound = s.matchesFound := by
  cases b with
  | false => rfl
  | true => exact loadIgnore_matches ign s

/-- Characterization of the conditional ignore-file load's returned
reference: a fresh set holding the parsed patterns when processing is on
and a file is present, nothing otherwise. -/
theorem loadOpt_fst (b : Bool) (ign : Option (List String)) (s : WalkState) :
    (if b then loadIgnore ign s else (none, s)).1 =
      (match b, ign with
       | true, some lines => some (s.igsets.length, parseIgnoreLines lines)
       | _, _ => none) := by
  cases b <;> cases ign <;> cases s <;> rfl

theorem spawnPrep_out (full : String) (child : FSNode) (fw : Option IgRef) (st : WalkState) :
    (spawnPrep full child fw st).out = st.out := by
  cases st
  cases fw with
  | none => rfl
  | some f => simp [spawnPrep, rcIncr]

theorem spawnPrep_matches (full : String) (child : FSNode) (fw : Option IgRef) (st : WalkState) :
    (spawnPrep full child fw st).matchesFound = st.matchesFound := by
  cases st
  cases fw with
  | none => rfl
  | some f => simp [spawnPrep, rcIncr]

theorem spawnFail_out (fw : Option IgRef) (st : WalkState) : (spawnFail fw st).out = st.out := by
  cases st
  cases fw with
  | none => rfl
  | some f => simp [spawnFail, rcDecr]

theorem spawnFail_matches (fw : Option IgRef) (st : WalkState) :
    (spawnFail fw st).matchesFound = st.matchesFound := by
  cases st
  cases fw with
  | none => rfl
  | some f => simp [spawnFail, rcDecr]

/-- The per-entry filter/report step depends, among the state's fields,
only on the sink contents and the matches-found counter; states agreeing
there are transformed to states agreeing there. -/
theorem entryStep_rel (cfg : SearchConfig) (path name : String) (child : FSNode)
    (st st' : WalkState) (ho : st.out = st'.out) (hm : st.matchesFound = st'.matchesFound) :
    (entryStep cfg path name child st).out = (entryStep cfg path name child st').out ∧
    (entryStep cfg path name child st).matchesFound =
      (entryStep cfg path name child st').matchesFound := by
  cases st with
  | mk o fs ds mf act ig sp vi =>
    cases st' with
    | mk o' fs' ds' mf' act' ig' sp' vi' =>
      have ho2 : o = o' := ho
      have hm2 : mf = mf' := hm
      subst ho2
      subst hm2
      unfold entryStep
      rcases hf : evalFilter cfg name (path ++ "/" ++ name) child with ⟨mtc, ems⟩
      simp only [hf]
      cases mtc
      · exact ⟨rfl, rfl⟩
      · unfold recordMatch handleMatch
        split_ifs <;> exact ⟨rfl, rfl⟩

/-- Explicit form of a successful ignore-file load. -/
theorem loadIgnore_some_eq (lines : List String) (s : WalkState) :
    loadIgnore (some lines) s =
      (some (s.igsets.length, parseIgnoreLines lines),
       { s with igsets := s.igsets ++
           [{ pats := parseIgnoreLines lines, rc := 1, freed := false }] }) := by
  cases s; rfl

mutual
/-- Walks that differ only in inherited ignore sets with identical
ignore behaviour (and in state fields other than the sink and the match
counter) produce the same sink output and match count. -/
theorem walkNode_igE (cfg : SearchConfig) (ok : String → Bool) :
    ∀ (n : FSNode) (path : String) (depth : Int) (a b : Option IgRef) (st st' : WalkState),
      (∀ nm, igTest a nm = igTest b nm) →
      (st.out = st'.out ∧ st.matchesFound = st'.matchesFound) →
      ((walkNode cfg ok n path depth a st).out = (walkNode cfg ok n path depth b st').out ∧
       (walkNode cfg ok n path depth a st).matchesFound =
         (walkNode cfg ok n path depth b st').matchesFound)
  | .file sz mt u pm c, path, depth, a, b, st, st' => by
    intro hab hrel
    rw [walkNode, walkNode]
    · split_ifs
      · exact ⟨by rw [taskEnd_out, taskEnd_out]; exact hrel.1,
               by rw [taskEnd_matches, taskEnd_matches]; exact hrel.2⟩
      · exact ⟨by rw [taskEnd_out, taskEnd_out, bumpDirs_out, bumpDirs_out]; exact hrel.1,
               by rw [taskEnd_matches, taskEnd_matches, bumpDirs_matches, bumpDirs_matches]; exact hrel.2⟩
    · intro _ _ _ _ _ _ hq
      exact FSNode.noConfusion hq
    · intro _ _ _ _ _ _ hq
      exact FSNode.noConfusion hq
  | .link sz mt u pm, path, depth, a, b, st, st' => by
    intro hab hrel
    rw [walkNode, walkNode]
    · split_ifs
      · exact ⟨by rw [taskEnd_out, taskEnd_out]; exact hrel.1,
               by rw [taskEnd_matches, taskEnd_matches]; exact hrel.2⟩
      · exact ⟨by rw [taskEnd_out, taskEnd_out, bumpDirs_out, bumpDirs_out]; exact hrel.1,
               by rw [taskEnd_matches, taskEnd_matches, bumpDirs_matches, bumpDirs_matches]; exact hrel.2⟩
    · intro _ _ _ _ _ _ hq
      exact FSNode.noConfusion hq
    · intro _ _ _ _ _ _ hq
      exact FSNode.noConfusion hq
  | .dir sz mt u pm ign es, path, depth, a, b, st, st' => by
    intro hab hrel
    rw [walkNode, walkNode]
    by_cases hgate : ¬cfg.maxDepth = -1 ∧ cfg.maxDepth < depth
    · rw [if_pos hgate, if_pos hgate]
      exact ⟨by rw [taskEnd_out, taskEnd_out]; exact hrel.1,
             by rw [taskEnd_matches, taskEnd_matches]; exact hrel.2⟩
    · rw [if_neg hgate, if_neg hgate]
      have hst1 : (markVisited path (bumpDirs st)).out = (markVisited path (bumpDirs st')).out ∧
          (markVisited path (bumpDirs st)).matchesFound =
            (markVisited path (bumpDirs st')).matchesFound := by
        constructor
        · rw [markVisited_out, markVisited_out, bumpDirs_out, bumpDirs_out]; exact hrel.1
        · rw [markVisited_matches, markVisited_matches, bumpDirs_matches, bumpDirs_matches]
          exact hrel.2
      cases hv : cfg.ignoreVcs with
      | false =>
        rw [if_neg Bool.false_ne_true, if_neg Bool.false_ne_true]
        have hWE := walkEntries_igE cfg ok es path depth none none a b
          (markVisited path (bumpDirs st)) (markVisited path (bumpDirs st'))
          (fun _ => rfl) hab (fun nm => hab nm) hst1
        constructor
        · show (taskEnd (releaseLocal none (walkEntries cfg ok es path depth none a
              (markVisited path (bumpDirs st))))).out =
            (taskEnd (releaseLocal none (walkEntries cfg ok es path depth none b
              (markVisited path (bumpDirs st'))))).out
          rw [taskEnd_out, taskEnd_out, releaseLocal_out, releaseLocal_out]
          exact hWE.1
        · show (taskEnd (releaseLocal none (walkEntries cfg ok es path depth none a
              (markVisited path (bumpDirs st))))).matchesFound =
            (taskEnd (releaseLocal none (walkEntries cfg ok es path depth none b
              (markVisited path (bumpDirs st'))))).matchesFound
          rw [taskEnd_matches, taskEnd_matches, releaseLocal_matches, releaseLocal_matches]
          exact hWE.2
      | true =>
        rw [if_pos rfl, if_pos rfl]
        cases ign with
        | none =>
          have hWE := walkEntries_igE cfg ok es path depth none none a b
            (markVisited path (bumpDirs st)) (markVisited path (bumpDirs st'))
            (fun _ => rfl) hab (fun nm => hab nm) hst1
          constructor
          · show (taskEnd (releaseLocal none (walkEntries cfg ok es path depth none a
                (markVisited path (bumpDirs st))))).out =
              (taskEnd (releaseLocal none (walkEntries cfg ok es path depth none b
                (markVisited path (bumpDirs st'))))).out
            rw [taskEnd_out, taskEnd_out, releaseLocal_out, releaseLocal_out]
            exact hWE.1
          · show (taskEnd (releaseLocal none (walkEntries cfg ok es path depth none a
                (markVisited path (bumpDirs st))))).matchesFound =
              (taskEnd (releaseLocal none (walkEntries cfg ok es path depth none b
                (markVisited path (bumpDirs st'))))).matchesFound
            rw [taskEnd_matches, taskEnd_matches, releaseLocal_matches, releaseLocal_matches]
            exact hWE.2
        | some lines =>
          rw [loadIgnore_some_eq, loadIgnore_some_eq]
          have hSTrel : ({ markVisited path (bumpDirs st) with
                igsets := (markVisited path (bumpDirs st)).igsets ++
                  [{ pats := parseIgnoreLines lines, rc := 1, freed := false }] } : WalkState).out =
              ({ markVisited path (bumpDirs st') with
                igsets := (markVisited path (bumpDirs st')).igsets ++
                  [{ pats := parseIgnoreLines lines, rc := 1, freed := false }] } : WalkState).out ∧
              ({ markVisited path (bumpDirs st) with
                igsets := (markVisited path (bumpDirs st)).igsets ++
                  [{ pats := parseIgnoreLines lines, rc := 1, freed := false }] } : WalkState).matchesFound =
              ({ markVisited path (bumpDirs st') with
                igsets := (markVisited path (bumpDirs st')).igsets ++
                  [{ pats := parseIgnoreLines lines, rc := 1, freed := false }] } : WalkState).matchesFound := by
            constructor
            · show (markVisited path (bumpDirs st)).out = (markVisited path (bumpDirs st')).out
              exact hst1.1
            · show (markVisited path (bumpDirs st)).matchesFound =
                (markVisited path (bumpDirs st')).matchesFound
              exact hst1.2
          have hWE := walkEntries_igE cfg ok es path depth
            (some ((markVisited path (bumpDirs st)).igsets.length, parseIgnoreLines lines))
            (some ((markVisited path (bumpDirs st')).igsets.length, parseIgnoreLines lines))
            a b
            ({ markVisited path (bumpDirs st) with
                igsets := (markVisited path (bumpDirs st)).igsets ++
                  [{ pats := parseIgnoreLines lines, rc := 1, freed := false }] })
            ({ markVisited path (bumpDirs st') with
                igsets := (markVisited path (bumpDirs st')).igsets ++
                  [{ pats := parseIgnoreLines lines, rc := 1, freed := false }] })
            (fun _ => rfl) hab (fun _ => rfl) hSTrel
          constructor
          · show (taskEnd (releaseLocal
                (some ((markVisited path (bumpDirs st)).igsets.length, parseIgnoreLines lines))
                (walkEntries cfg ok es path depth
                  (some ((markVisited path (bumpDirs st)).igsets.length, parseIgnoreLines lines)) a
                  ({ markVisited path (bumpDirs st) with
                     igsets := (markVisited path (bumpDirs st)).igsets ++
                       [{ pats := parseIgnoreLines lines, rc := 1, freed := false }] })))).out =
              (taskEnd (releaseLocal
                (some ((markVisited path (bumpDirs st')).igsets.length, parseIgnoreLines lines))
                (walkEntries cfg ok es path depth
                  (some ((markVisited path (bumpDirs st')).igsets.length, parseIgnoreLines lines)) b
                  ({ markVisited path (bumpDirs st') with
                     igsets := (markVisited path (bumpDirs st')).igsets ++
                       [{ pats := parseIgnoreLines lines, rc := 1, freed := false }] })))).out
            rw [taskEnd_out, taskEnd_out, releaseLocal_out, releaseLocal_out]
            exact hWE.1
          · show (taskEnd (releaseLocal
                (some ((markVisited path (bumpDirs st)).igsets.length, parseIgnoreLines lines))
                (walkEntries cfg ok es path depth
                  (some ((markVisited path (bumpDirs st)).igsets.length, parseIgnoreLines lines)) a
                  ({ markVisited path (bumpDirs st) with
                     igsets := (markVisited path (bumpDirs st)).igsets ++
                       [{ pats := parseIgnoreLines lines, rc := 1, freed := false }] })))).matchesFound =
              (taskEnd (releaseLocal
                (some ((markVisited path (bumpDirs st')).igsets.length, parseIgnoreLines lines))
                (walkEntries cfg ok es path depth
                  (some ((markVisited path (bumpDirs st')).igsets.length, parseIgnoreLines lines)) b
                  ({ markVisited path (bumpDirs st') with
                     igsets := (markVisited path (bumpDirs st')).igsets ++
                       [{ pats := parseIgnoreLines lines, rc := 1, freed := false }] })))).matchesFound
            rw [taskEnd_matches, taskEnd_matches, releaseLocal_matches, releaseLocal_matches]
            exact hWE.2
termination_by structural n => n

/-- Entry-loop version of `walkNode_igE`: the local and inherited sets
may differ between the two runs as long as their ignore behaviour and
the behaviour of the forwarded choice agree. -/
theorem walkEntries_igE (cfg : SearchConfig) (ok : String → Bool) :
    ∀ (es : FSEntries) (path : String) (depth : Int) (la lb a b : Option IgRef)
      (st st' : WalkState),
      (∀ nm, igTest la nm = igTest lb nm) →
      (∀ nm, igTest a nm = igTest b nm) →
      (∀ nm, igTest (fwChoice la a) nm = igTest (fwChoice lb b) nm) →
      (st.out = st'.out ∧ st.matchesFound = st'.matchesFound) →
      ((walkEntries cfg ok es path depth la a st).out =
         (walkEntries cfg ok es path depth lb b st').out ∧
       (walkEntries cfg ok es path depth la a st).matchesFound =
         (walkEntries cfg ok es path depth lb b st').matchesFound)
  | .nil, _, _, _, _, _, _, st, st' => by
    intro _ _ _ hrel
    rw [walkEntries, walkEntries]
    exact hrel
  | .cons name child rest, path, depth, la, lb, a, b, st, st' => by
    intro hl hab hfw hrel
    rw [walkEntries, walkEntries]
    apply walkEntries_igE cfg ok rest path depth la lb a b _ _ hl hab hfw
    have hskip : skipEntry cfg la a name = skipEntry cfg lb b name := by
      unfold skipEntry
      rw [hl name, hab name]
    by_cases hs : skipEntry cfg lb b name = true
    · rw [if_pos (hskip.trans hs), if_pos hs]
      exact hrel
    · rw [if_neg (fun hcontra => hs (hskip.symm.trans hcontra)), if_neg hs]
      have hes := entryStep_rel cfg path name child st st' hrel.1 hrel.2
      by_cases hg : child.isDir = true ∧ (cfg.maxDepth = -1 ∨ depth < cfg.maxDepth)
      · rw [if_pos hg, if_pos hg]
        by_cases hok : ok (path ++ "/" ++ name) = true
        · rw [if_pos hok, if_pos hok]
          apply walkNode_igE cfg ok child (path ++ "/" ++ name) (depth + 1)
            (fwChoice la a) (fwChoice lb b) _ _ hfw
          constructor
          · rw [spawnPrep_out, spawnPrep_out]
            exact hes.1
          · rw [spawnPrep_matches, spawnPrep_matches]
            exact hes.2
        · rw [if_neg hok, if_neg hok]
          constructor
          · rw [spawnFail_out, spawnFail_out, spawnPrep_out, spawnPrep_out]
            exact hes.1
          · rw [spawnFail_matches, spawnFail_matches, spawnPrep_matches, spawnPrep_matches]
            exact hes.2
      · rw [if_neg hg, if_neg hg]
        exact hes
termination_by structural es => es
end

/-- A task on a directory whose ignore file parses to no patterns behaves,
for sink output and match count, exactly like the same task with the
ignore file absent — provided the task inherits no ignore set. -/
theorem walkNode_empty_ignore (cfg : SearchConfig) (ok : String → Bool)
    (sz mt : Int) (u pm : Nat) (lines : List String) (es : FSEntries)
    (path : String) (depth : Int) (st : WalkState)
    (h : parseIgnoreLines lines = []) :
    ((walkNode cfg ok (FSNode.dir sz mt u pm (some lines) es) path depth none st).out =
       (walkNode cfg ok (FSNode.dir sz mt u pm none es) path depth none st).out ∧
     (walkNode cfg ok (FSNode.dir sz mt u pm (some lines) es) path depth none st).matchesFound =
       (walkNode cfg ok (FSNode.dir sz mt u pm none es) path depth none st).matchesFound) := by
  rw [walkNode, walkNode]
  by_cases hgate : ¬cfg.maxDepth = -1 ∧ cfg.maxDepth < depth
  · rw [if_pos hgate, if_pos hgate]
    exact ⟨rfl, rfl⟩
  · rw [if_neg hgate, if_neg hgate]
    cases hv : cfg.ignoreVcs with
    | false =>
      rw [if_neg Bool.false_ne_true, if_neg Bool.false_ne_true]
      exact ⟨rfl, rfl⟩
    | true =>
      rw [if_pos rfl, if_pos rfl]
      rw [loadIgnore_some_eq, h]
      have hWE := walkEntries_igE cfg ok es path depth
        (some ((markVisited path (bumpDirs st)).igsets.length, ([] : List String)))
        none none none
        ({ markVisited path (bumpDirs st) with
           igsets := (markVisited path (bumpDirs st)).igsets ++
             [{ pats := [], rc := 1, freed := false }] })
        (markVisited path (bumpDirs st))
        (fun _ => rfl) (fun _ => rfl) (fun _ => rfl) ⟨rfl, rfl⟩
      constructor
      · show (taskEnd (releaseLocal
            (some ((markVisited path (bumpDirs st)).igsets.length, ([] : List String)))
            (walkEntries cfg ok es path depth
              (some ((markVisited path (bumpDirs st)).igsets.length, ([] : List String))) none
              ({ markVisited path (bumpDirs st) with
                 igsets := (markVisited path (bumpDirs st)).igsets ++
                   [{ pats := [], rc := 1, freed := false }] })))).out =
          (taskEnd (releaseLocal none (walkEntries cfg ok es path depth none none
            (markVisited path (bumpDirs st))))).out
        rw [taskEnd_out, taskEnd_out, releaseLocal_out, releaseLocal_out]
        exact hWE.1
      · show (taskEnd (releaseLocal
            (some ((markVisited path (bumpDirs st)).igsets.length, ([] : List String)))
            (walkEntries cfg ok es path depth
              (some ((markVisited path (bumpDirs st)).igsets.length, ([] : List String))) none
              ({ markVisited path (bumpDirs st) with
                 igsets := (markVisited path (bumpDirs st)).igsets ++
                   [{ pats := [], rc := 1, freed := false }] })))).matchesFound =
          (taskEnd (releaseLocal none (walkEntries cfg ok es path depth none none
            (markVisited path (bumpDirs st))))).matchesFound
        rw [taskEnd_matches, taskEnd_matches, releaseLocal_matches, releaseLocal_matches]
        exact hWE.2

/-- C4 (counterexample): an empty ignore file is NOT always equivalent to
an absent one.  With `a/.gitignore` = `secret*`, an empty
`a/b/.gitignore` (comment and blank line only) and `a/b/c/secret.txt`:
when the empty file is present, the task for `b` forwards its own empty
set to `c` — replacing the inherited root set — so `secret.txt` is
matched; with the file absent, the root set reaches `c` and
`secret.txt` is ignored.  The match sets differ. -/
theorem empty_ignore_file_cex :
    ((runSearch cfgRootA okAll (tree4 (some ["# note", ""]))).out.contains
       "a/b/c/secret.txt\x1B[0m \x1B[90m[f]\x1B[0m\n") = true ∧
    ((runSearch cfgRootA okAll (tree4 none)).out.contains
       "a/b/c/secret.txt\x1B[0m \x1B[90m[f]\x1B[0m\n") = false := by
  refine ⟨by decide, by decide⟩

/-- C4 (amended): a walk whose ROOT directory carries an ignore file with
no effective patterns produces the same sink output and match count as
the identical walk with that ignore file absent.  (At the root no ignore
set is inherited; deeper in the tree the equivalence fails — see the
counterexample — because the empty local set replaces the inherited set
forwarded to grandchildren.) -/
theorem empty_ignore_like_absent (cfg : SearchConfig) (ok : String → Bool)
    (sz mt : Int) (u pm : Nat) (lines : List String) (es : FSEntries)
    (h : parseIgnoreLines lines = []) :
    (runSearch cfg ok (FSNode.dir sz mt u pm (some lines) es)).out =
      (runSearch cfg ok (FSNode.dir sz mt u pm none es)).out ∧
    (runSearch cfg ok (FSNode.dir sz mt u pm (some lines) es)).matchesFound =
      (runSearch cfg ok (FSNode.dir sz mt u pm none es)).matchesFound := by
  unfold runSearch
  exact walkNode_empty_ignore cfg ok sz mt u pm lines es cfg.rootDir 0 _ h

/-- Witness for C4's amended theorem: a root with an ignore file holding
only a comment and a blank line outputs the same as without it. -/
theorem empty_ignore_like_absent_witness :
    (runSearch defaultConfig okAll (FSNode.dir 0 0 0 493 (some ["# note", ""])
       (entriesOfList [("f.txt", FSNode.file 1 0 0 420 [])]))).out =
      (runSearch defaultConfig okAll (FSNode.dir 0 0 0 493 none
       (entriesOfList [("f.txt", FSNode.file 1 0 0 420 [])]))).out :=
  (empty_ignore_like_absent defaultConfig okAll 0 0 0 493 ["# note", ""]
    (entriesOfList [("f.txt", FSNode.file 1 0 0 420 [])]) (by decide)).1
